import Mathlib

/-!
Shallow embedding of the WebSocket connection manager of the `dost-ai`
repository (`app/services/websocket_manager.py`), together with proofs of
the behavioural claims about it.

Modelling conventions:
* `WebSocket` handles and user ids are natural numbers.
* Python dicts are association lists with CPython semantics: assignment
  overwrites in place if the key is present, else appends a fresh key at
  the end (`setA`); `defaultdict` item access that inserts a default is
  `ensureA`; Python `set`s of sockets are duplicate-free lists whose
  iteration order is the insertion order.
* Wall-clock instants (`datetime.now()`) are supplied by the caller as a
  natural number `now`; `isoformat` rendering is abstracted to `toString`.
* Whether `websocket.send_text` raises on a given socket is supplied by a
  failure oracle `fail : Nat → Bool`; each successful delivery is
  recorded as an event `(user, socket, payload)`.
* All Python-level exception paths inside the manager are caught by the
  manager itself, so every embedded operation is a total function.
-/

namespace DostAI

/-! ### Association lists with Python `dict` semantics -/

section AssocDefs

variable {α β : Type} [DecidableEq α]

def lookupA : List (α × β) → α → Option β
  | [], _ => none
  | (k, v) :: rest, k' => if k' = k then some v else lookupA rest k'

/-- Assignment `d[k] = v`: overwrite in place if the key exists, else append. -/
def setA : List (α × β) → α → β → List (α × β)
  | [], k, v => [(k, v)]
  | (k', v') :: rest, k, v =>
      if k = k' then (k, v) :: rest else (k', v') :: setA rest k v

/-- Deletion `del d[k]` (a no-op when the key is absent). -/
def eraseA : List (α × β) → α → List (α × β)
  | [], _ => []
  | (k', v') :: rest, k => if k = k' then rest else (k', v') :: eraseA rest k

/-- Item access on a `defaultdict`: inserts the default at the end if absent. -/
def ensureA (m : List (α × β)) (k : α) (d : β) : List (α × β) :=
  if (lookupA m k).isSome then m else m ++ [(k, d)]

def keysA (m : List (α × β)) : List α := m.map (fun p => p.1)

end AssocDefs

/-! ### JSON-like message payloads -/

inductive J : Type where
  | null : J
  | jbool (b : Bool) : J
  | num (n : Nat) : J
  | str (s : String) : J
  | arr (elems : List J) : J
  | obj (fields : List (String × J)) : J

/-- A Python dict used as a JSON object payload. -/
abbrev Dict := List (String × J)

/-- Abstraction of `datetime.now().isoformat()` at instant `now`. -/
def isoTimestamp (now : Nat) : String := toString now

def timeJ (now : Nat) : J := J.str (isoTimestamp now)

/-- Lines 171 and 213: `message['timestamp'] = datetime.now().isoformat()`. -/
def stamp_message (message : Dict) (now : Nat) : Dict :=
  setA message "timestamp" (timeJ now)

def hasKey (d : Dict) (k : String) : Bool := (lookupA d k).isSome

/-- Outbound envelope shape named by the spec:
`{type: string, data: object, timestamp: ISO-8601 string}` (top-level keys). -/
def has_envelope (d : Dict) : Bool :=
  hasKey d "type" && hasKey d "data" && hasKey d "timestamp"

/-! ### Data model (`WebSocketManager.__init__`, lines 18-37) -/

/-- Entry of `connection_metadata` (lines 56-61). -/
structure Meta where
  user_id : Nat
  connected_at : Nat
  session_id : Nat
  session_data : Dict

/-- Entry of `user_sessions` (lines 64-69; `status` is added only by
`_handle_user_status`, which none of the modelled operations invoke). -/
structure Session where
  user_id : Nat
  last_activity : Nat
  active_connections : Nat
  session_data : Dict
  status : Option J

structure State where
  active_connections : List (Nat × List Nat)
  connection_metadata : List (Nat × Meta)
  user_sessions : List (Nat × Session)
  offline_messages : List (Nat × List Dict)
  total_connections : Nat
  active_connections_stat : Nat
  messages_sent : Nat
  messages_received : Nat

def initialState : State :=
  { active_connections := []
    connection_metadata := []
    user_sessions := []
    offline_messages := []
    total_connections := 0
    active_connections_stat := 0
    messages_sent := 0
    messages_received := 0 }

/-- Lines 73-75: `sum(len(connections) for connections in values())`. -/
def sumConns (ac : List (Nat × List Nat)) : Nat :=
  (ac.map (fun p => p.2.length)).sum

/-- A successful delivery event: (user id, socket, payload as sent). -/
abbrev Ev := Nat × Nat × Dict

/-! ### `disconnect` (lines 96-156), split into its sequential blocks -/

/-- The connection set `disconnect` leaves for the user before the
empty-entry cleanup: lines 105-132. -/
def disconnectedConns (s : State) (user_id : Nat) (websocket : Option Nat) :
    List Nat :=
  match websocket with
  | some ws => ((lookupA s.active_connections user_id).getD []).erase ws
  | none => []

/-- Lines 105-132: remove the socket(s) from the user's set and delete the
corresponding `connection_metadata` entries.  The `defaultdict` item access
on lines 107/122 first inserts an empty set if the user has no entry. -/
def disconnect_conns (s : State) (user_id : Nat) (websocket : Option Nat) :
    State :=
  let ac0 := ensureA s.active_connections user_id []
  match websocket with
  | some ws =>
      { s with
        active_connections :=
          setA ac0 user_id (((lookupA ac0 user_id).getD []).erase ws)
        connection_metadata := eraseA s.connection_metadata ws }
  | none =>
      { s with
        active_connections := setA ac0 user_id []
        connection_metadata :=
          ((lookupA ac0 user_id).getD []).foldl
            (fun md c => eraseA md c) s.connection_metadata }

/-- Lines 135-136: `if not self.active_connections[user_id]: del ...`. -/
def drop_empty_entry (s : State) (user_id : Nat) : State :=
  if ((lookupA s.active_connections user_id).getD []).isEmpty then
    { s with active_connections := eraseA s.active_connections user_id }
  else s

/-- Lines 139-146: refresh the session's connection count and delete the
session when the user has no live connection left. -/
def update_session_on_disconnect (s : State) (user_id : Nat) : State :=
  match lookupA s.user_sessions user_id with
  | none => s
  | some sess =>
      let cnt := ((lookupA s.active_connections user_id).getD []).length
      let us1 := setA s.user_sessions user_id
        { sess with active_connections := cnt }
      if ((lookupA s.active_connections user_id).getD []).isEmpty then
        { s with user_sessions := eraseA us1 user_id }
      else
        { s with user_sessions := us1 }

/-- `disconnect(user_id, websocket)`, lines 96-156.  `websocket = none` is
Python's `websocket=None` (disconnect every connection of the user). -/
def disconnect (s : State) (user_id : Nat) (websocket : Option Nat) : State :=
  let s1 := disconnect_conns s user_id websocket
  let s2 := drop_empty_entry s1 user_id
  let s3 := update_session_on_disconnect s2 user_id
  { s3 with active_connections_stat := sumConns s3.active_connections }

/-! ### Offline queue (`_queue_offline_message`, lines 263-284) -/

/-- The pure queue transform of `_queue_offline_message`: append, then keep
only the newest `max_queue_size = 100` entries (Python `q[-100:]`). -/
def offline_append (queue : List Dict) (message : Dict) : List Dict :=
  let q := queue ++ [message]
  if q.length > 100 then q.drop (q.length - 100) else q

/-- `_queue_offline_message(user_id, message)` on the manager state; the
`defaultdict` item access creates the user's queue when absent. -/
def queue_offline_message (s : State) (user_id : Nat) (message : Dict) :
    State :=
  { s with
    offline_messages :=
      setA s.offline_messages user_id
        (offline_append ((lookupA s.offline_messages user_id).getD [])
          message) }

/-! ### `send_to_user` (lines 158-201) -/

/-- `send_to_user(user_id, message)`.  Returns the new state, the boolean
result, the successful delivery events, and the message object as the
caller observes it after the call (the dict is stamped in place, line 171).
Sockets on which `fail` is `true` raise and are disconnected (lines
183-189); if no connection accepted the message — including when the user
has no entry at all — the stamped message is queued (lines 195-197). -/
def send_to_user (s : State) (user_id : Nat) (message : Dict) (now : Nat)
    (fail : Nat → Bool) : State × Bool × List Ev × Dict :=
  let message := stamp_message message now
  match lookupA s.active_connections user_id with
  | some conns =>
      let r := conns.foldl
        (fun (acc : State × Bool × List Ev) ws =>
          if fail ws then
            (disconnect acc.1 user_id (some ws), acc.2.1, acc.2.2)
          else
            (acc.1, true, acc.2.2 ++ [(user_id, ws, message)]))
        (s, false, [])
      if r.2.1 then
        ({ r.1 with messages_sent := r.1.messages_sent + 1 }, true, r.2.2,
          message)
      else
        (queue_offline_message r.1 user_id message, false, r.2.2, message)
  | none =>
      (queue_offline_message s user_id message, false, [], message)

/-! ### Offline replay (`_send_offline_messages`, lines 286-310) -/

/-- Line 300-301: each queued message is wrapped as an `offline_message`. -/
def wrap_offline (message : Dict) : Dict :=
  [("type", J.str "offline_message"), ("data", J.obj message)]

/-- `_send_offline_messages(user_id)`.  Returns the new state, the
successful delivery events, and the list of payloads handed to
`send_to_user` (one per originally queued message).  Line 305 clears the
live queue after the loop, so messages re-queued by a failing replay are
dropped as well. -/
def send_offline_messages (s : State) (user_id : Nat) (now : Nat)
    (fail : Nat → Bool) : State × List Ev × List Dict :=
  match lookupA s.offline_messages user_id with
  | none => (s, [], [])
  | some messages =>
      let r := messages.foldl
        (fun (acc : State × List Ev × List Dict) m =>
          let r1 := send_to_user acc.1 user_id (wrap_offline m) now fail
          (r1.1, acc.2.1 ++ r1.2.2.1, acc.2.2 ++ [wrap_offline m]))
        (s, [], [])
      ({ r.1 with offline_messages := setA r.1.offline_messages user_id [] },
        r.2.1, r.2.2)

/-! ### `connect` (lines 39-94) -/

/-- Lines 80-87: the confirmation sent directly over the socket.  Note the
timestamp sits inside `data`; no top-level `timestamp` key is added because
the message bypasses `send_to_user`'s stamping. -/
def connection_confirmed_msg (user_id session_id now : Nat) : Dict :=
  [("type", J.str "connection_confirmed"),
   ("data", J.obj
     [("user_id", J.num user_id),
      ("session_id", J.str (toString session_id)),
      ("timestamp", timeJ now)])]

/-- Lines 52-75 of `connect`: register the accepted socket, store its
metadata, overwrite the user session and refresh the statistics. -/
def connect_register (s : State) (websocket user_id : Nat)
    (session_data : Option Dict) (now session_id : Nat) : State :=
  let conns := (lookupA s.active_connections user_id).getD []
  let conns' := if websocket ∈ conns then conns else conns ++ [websocket]
  let s1 := { s with
    active_connections := setA s.active_connections user_id conns' }
  let meta : Meta :=
    { user_id := user_id, connected_at := now, session_id := session_id
      session_data := session_data.getD [] }
  let s2 := { s1 with
    connection_metadata := setA s1.connection_metadata websocket meta }
  let sess : Session :=
    { user_id := user_id, last_activity := now
      active_connections := conns'.length
      session_data := session_data.getD [], status := none }
  let s3 := { s2 with user_sessions := setA s2.user_sessions user_id sess }
  { s3 with
    total_connections := s3.total_connections + 1
    active_connections_stat := sumConns s3.active_connections }

/-- `connect(websocket, user_id, session_data)`.  `acceptFail` models
`websocket.accept()` raising; `fail websocket` models the confirmation send
raising; both fall into the `except` branch of lines 92-94.  `session_id`
stands for the generated `uuid4` string. -/
def connect (s : State) (websocket user_id : Nat) (session_data : Option Dict)
    (now session_id : Nat) (acceptFail : Bool) (fail : Nat → Bool) :
    State × List Ev :=
  if acceptFail then (disconnect s user_id (some websocket), []) else
  let s4 := connect_register s websocket user_id session_data now session_id
  if fail websocket then (disconnect s4 user_id (some websocket), [])
  else
    let conf := connection_confirmed_msg user_id session_id now
    let r := send_offline_messages s4 user_id now fail
    (r.1, (user_id, websocket, conf) :: r.2.1)

/-! ### `broadcast_to_all` (lines 203-232) -/

/-- Line 217: `if exclude_user and user_id == exclude_user` — by Python
truthiness a `None` or `0` exclusion never matches. -/
def broadcast_skip (exclude_user : Option Nat) (user_id : Nat) : Bool :=
  match exclude_user with
  | none => false
  | some x => x != 0 && user_id == x

/-- Lines 221-229: one send attempt to one socket of `user_id`; failures
disconnect the socket, successes bump `messages_sent` and record the
delivery. -/
def broadcast_send_conn (user_id : Nat) (message : Dict) (fail : Nat → Bool)
    (acc2 : State × List Ev) (ws : Nat) : State × List Ev :=
  if fail ws then (disconnect acc2.1 user_id (some ws), acc2.2)
  else
    ({ acc2.1 with messages_sent := acc2.1.messages_sent + 1 },
      acc2.2 ++ [(user_id, ws, message)])

/-- One step of the `for user_id, connections in items()` loop.  The third
component is the abort flag: once the live dict's size differs from `n0`
(its size when iteration started), the iterator raises `RuntimeError` and
the `except` silently abandons the rest of the broadcast. -/
def broadcast_step (message : Dict) (exclude_user : Option Nat)
    (fail : Nat → Bool) (n0 : Nat) (acc : State × List Ev × Bool)
    (entry : Nat × List Nat) : State × List Ev × Bool :=
  if acc.2.2 then acc
  else if acc.1.active_connections.length != n0 then (acc.1, acc.2.1, true)
  else if broadcast_skip exclude_user entry.1 then acc
  else
    let inner := entry.2.foldl
      (broadcast_send_conn entry.1 message fail) (acc.1, acc.2.1)
    (inner.1, inner.2, false)

/-- `broadcast_to_all(message, exclude_user)`, lines 203-232.  The Python
loop iterates the live `active_connections` dict; a mid-loop disconnect
that deletes a user entry makes the iterator raise `RuntimeError` at its
next step, which the surrounding `except` turns into silently abandoning
the rest of the broadcast (the abort flag of `broadcast_step`). -/
def broadcast_to_all (s : State) (message : Dict) (exclude_user : Option Nat)
    (now : Nat) (fail : Nat → Bool) : State × List Ev × Dict :=
  let message := stamp_message message now
  let r := s.active_connections.foldl
    (broadcast_step message exclude_user fail s.active_connections.length)
    (s, [], false)
  (r.1, r.2.1, message)

/-! ### Read-only queries (lines 419-447) -/

def get_active_users (s : State) : List Nat := keysA s.active_connections

def get_user_connection_count (s : State) (user_id : Nat) : Nat :=
  ((lookupA s.active_connections user_id).getD []).length

def get_user_session (s : State) (user_id : Nat) : Option Session :=
  lookupA s.user_sessions user_id

def offline_queue (s : State) (user_id : Nat) : List Dict :=
  (lookupA s.offline_messages user_id).getD []

/-! ### Idle cleanup (`cleanup_inactive_connections`, lines 527-546) -/

/-- `cleanup_inactive_connections()`: collect every metadata entry whose
age since establishment strictly exceeds the hard-coded 3600 seconds, then
disconnect each.  Natural-number subtraction agrees with the Python float
comparison: a `connected_at` in the future gives a non-positive age, which
is never `> 3600`. -/
def cleanup_inactive_connections (s : State) (now : Nat) : State :=
  let inactive := s.connection_metadata.filter
    (fun p => decide (3600 < now - p.2.connected_at))
  inactive.foldl (fun s' p => disconnect s' p.2.user_id (some p.1)) s

/-- Modelled from the spec: `sweep(idle_threshold) -> count_removed` takes
the idle threshold as a parameter with default one hour.  The repository's
`cleanup_inactive_connections` hard-codes the threshold at 3600 seconds
and takes no parameter; this definition generalises it literally so that
the spec's parameterised statements can be compared with the code. -/
def sweep (s : State) (idle_threshold now : Nat) : State :=
  let inactive := s.connection_metadata.filter
    (fun p => decide (idle_threshold < now - p.2.connected_at))
  inactive.foldl (fun s' p => disconnect s' p.2.user_id (some p.1)) s

/-! ### Outbound message constructors (lines 358-366, 449-525) -/

/-- Lines 361-364: the pong reply has no `data` field at all. -/
def pong_msg (now : Nat) : Dict :=
  [("type", J.str "pong"), ("timestamp", timeJ now)]

/-- Lines 457-464. -/
def system_notification_msg (message : String) (now : Nat) : Dict :=
  [("type", J.str "system_notification"),
   ("data", J.obj
     [("message", J.str message), ("timestamp", timeJ now),
      ("severity", J.str "info")])]

/-- Lines 480-487. -/
def ai_response_msg (response : String) (context : Option Dict) (now : Nat) :
    Dict :=
  [("type", J.str "ai_response"),
   ("data", J.obj
     [("response", J.str response), ("context", J.obj (context.getD [])),
      ("timestamp", timeJ now)])]

/-- Lines 499-505: `{**task_data, 'timestamp': ...}`. -/
def task_notification_msg (task_data : Dict) (now : Nat) : Dict :=
  [("type", J.str "task_notification"),
   ("data", J.obj (setA task_data "timestamp" (timeJ now)))]

/-- Lines 517-523. -/
def calendar_reminder_msg (event_data : Dict) (now : Nat) : Dict :=
  [("type", J.str "calendar_reminder"),
   ("data", J.obj (setA event_data "timestamp" (timeJ now)))]

/-- `send_system_notification(message, user_id)`, lines 449-469.  The
targeted branch is guarded by `if user_id:`, so `user_id = 0` (and `None`)
falls through to `broadcast_to_all`. -/
def send_system_notification (s : State) (message : String)
    (user_id : Option Nat) (now : Nat) (fail : Nat → Bool) :
    State × List Ev :=
  let notification := system_notification_msg message now
  match user_id with
  | some uid =>
      if uid != 0 then
        let r := send_to_user s uid notification now fail
        (r.1, r.2.2.1)
      else
        let r := broadcast_to_all s notification none now fail
        (r.1, r.2.1)
  | none =>
      let r := broadcast_to_all s notification none now fail
      (r.1, r.2.1)

/-! ### Operation sequences over the manager -/

/-- One externally triggered manager operation, with its observation of the
clock and its per-socket failure oracle. -/
inductive Op : Type where
  | connectOp (websocket user_id : Nat) (session_data : Option Dict)
      (now session_id : Nat) (acceptFail : Bool) (fail : Nat → Bool) : Op
  | disconnectOp (user_id : Nat) (websocket : Option Nat) : Op
  | sendToUserOp (user_id : Nat) (message : Dict) (now : Nat)
      (fail : Nat → Bool) : Op
  | broadcastOp (message : Dict) (exclude_user : Option Nat) (now : Nat)
      (fail : Nat → Bool) : Op
  | cleanupOp (now : Nat) : Op

def applyOp (s : State) : Op → State
  | .connectOp ws u sd now sid af f => (connect s ws u sd now sid af f).1
  | .disconnectOp u ws => disconnect s u ws
  | .sendToUserOp u m now f => (send_to_user s u m now f).1
  | .broadcastOp m ex now f => (broadcast_to_all s m ex now f).1
  | .cleanupOp now => cleanup_inactive_connections s now

def applyOps (s : State) (ops : List Op) : State := ops.foldl applyOp s

/-! ### Registry invariant -/

/-- The registry invariant: no user entry holds an empty connection set,
and a `user_sessions` entry exists exactly when a registry entry does. -/
def Inv (s : State) : Prop :=
  (∀ u cs, lookupA s.active_connections u = some cs → cs ≠ [])
  ∧ (∀ u, (lookupA s.user_sessions u).isSome
        = (lookupA s.active_connections u).isSome)

/-- Well-formedness of the four dict-backed maps: duplicate-free keys. -/
@[reducible] def WF (s : State) : Prop :=
  (keysA s.active_connections).Nodup ∧ (keysA s.user_sessions).Nodup
  ∧ (keysA s.connection_metadata).Nodup ∧ (keysA s.offline_messages).Nodup

/-- The `n` newest entries of a list (Python `l[-n:]`), used to state the
spec's "the newest 100 are always retained". -/
def lastN {γ : Type} (n : Nat) (l : List γ) : List γ :=
  l.drop (l.length - n)

/-! ### Association-list lemmas -/

section AssocLemmas

variable {α β : Type} [DecidableEq α]

theorem lookupA_setA_self (m : List (α × β)) (k : α) (v : β) :
    lookupA (setA m k v) k = some v := by
  induction m with
  | nil => simp [setA, lookupA]
  | cons p rest ih =>
    obtain ⟨a, b⟩ := p
    by_cases h : k = a
    · simp [setA, lookupA, h]
    · simp [setA, lookupA, h, ih, Ne.symm h]

theorem lookupA_setA_ne (m : List (α × β)) (k k' : α) (v : β) (h : k' ≠ k) :
    lookupA (setA m k v) k' = lookupA m k' := by
  induction m with
  | nil => simp [setA, lookupA, h]
  | cons p rest ih =>
    obtain ⟨a, b⟩ := p
    by_cases hka : k = a
    · subst hka
      simp [setA, lookupA, h]
    · simp [setA, lookupA, hka, ih]

theorem lookupA_eraseA_ne (m : List (α × β)) (k k' : α) (h : k' ≠ k) :
    lookupA (eraseA m k) k' = lookupA m k' := by
  induction m with
  | nil => simp [eraseA]
  | cons p rest ih =>
    obtain ⟨a, b⟩ := p
    by_cases hka : k = a
    · subst hka
      simp [eraseA, lookupA, h]
    · simp [eraseA, lookupA, hka, ih]

theorem mem_keysA_iff_lookupA (m : List (α × β)) (k : α) :
    k ∈ keysA m ↔ (lookupA m k).isSome = true := by
  induction m with
  | nil => simp [keysA, lookupA]
  | cons p rest ih =>
    obtain ⟨a, b⟩ := p
    simp only [keysA, List.map_cons, List.mem_cons, lookupA] at ih ⊢
    by_cases h : k = a
    · simp [h]
    · simp [h, ih]

theorem lookupA_eq_none_of_not_mem (m : List (α × β)) (k : α)
    (h : k ∉ keysA m) : lookupA m k = none := by
  rw [mem_keysA_iff_lookupA] at h
  exact Option.not_isSome_iff_eq_none.mp (by simpa using h)

theorem lookupA_eraseA_self (m : List (α × β)) (k : α)
    (h : (keysA m).Nodup) : lookupA (eraseA m k) k = none := by
  induction m with
  | nil => simp [eraseA, lookupA]
  | cons p rest ih =>
    obtain ⟨a, b⟩ := p
    rw [keysA] at h
    simp only [List.map_cons, List.nodup_cons] at h
    by_cases hka : k = a
    · subst hka
      simpa [eraseA] using lookupA_eq_none_of_not_mem rest k h.1
    · simp [eraseA, lookupA, hka, ih h.2]

theorem keysA_setA (m : List (α × β)) (k : α) (v : β) :
    keysA (setA m k v) = if k ∈ keysA m then keysA m else keysA m ++ [k] := by
  induction m with
  | nil => simp [setA, keysA]
  | cons p rest ih =>
    obtain ⟨a, b⟩ := p
    by_cases hka : k = a
    · subst hka
      simp [setA, keysA]
    · simp only [setA, if_neg hka, keysA, List.map_cons] at ih ⊢
      rw [ih]
      by_cases hmem : k ∈ List.map (fun p => p.1) rest
      · simp [hmem, hka]
      · simp [hmem, hka]

theorem nodup_keysA_setA (m : List (α × β)) (k : α) (v : β)
    (h : (keysA m).Nodup) : (keysA (setA m k v)).Nodup := by
  rw [keysA_setA]
  split
  · exact h
  · next hk => simp [List.nodup_append, h, hk]

theorem keysA_eraseA (m : List (α × β)) (k : α) :
    keysA (eraseA m k) = (keysA m).erase k := by
  induction m with
  | nil => simp [eraseA, keysA]
  | cons p rest ih =>
    obtain ⟨a, b⟩ := p
    by_cases hka : k = a
    · subst hka
      simp [eraseA, keysA, List.erase_cons]
    · simp [eraseA, keysA, hka, List.erase_cons, Ne.symm hka, ih] at ih ⊢
      simpa [keysA] using ih

theorem nodup_keysA_eraseA (m : List (α × β)) (k : α)
    (h : (keysA m).Nodup) : (keysA (eraseA m k)).Nodup := by
  rw [keysA_eraseA]
  exact h.erase k

theorem lookupA_append (m m' : List (α × β)) (k : α) :
    lookupA (m ++ m') k =
      match lookupA m k with
      | some v => some v
      | none => lookupA m' k := by
  induction m with
  | nil => simp [lookupA]
  | cons p rest ih =>
    obtain ⟨a, b⟩ := p
    by_cases h : k = a
    · simp [lookupA, h]
    · simp [lookupA, h, ih]

theorem lookupA_ensureA_self (m : List (α × β)) (k : α) (d : β) :
    lookupA (ensureA m k d) k = some ((lookupA m k).getD d) := by
  unfold ensureA
  cases hl : lookupA m k with
  | some v => simp [hl]
  | none => simp [hl, lookupA_append, lookupA]

theorem lookupA_ensureA_ne (m : List (α × β)) (k k' : α) (d : β)
    (h : k' ≠ k) : lookupA (ensureA m k d) k' = lookupA m k' := by
  unfold ensureA
  split
  · rfl
  · cases hl : lookupA m k' with
    | some v => simp [lookupA_append, hl]
    | none => simp [lookupA_append, hl, lookupA, h]

theorem keysA_ensureA (m : List (α × β)) (k : α) (d : β) :
    keysA (ensureA m k d) =
      if (lookupA m k).isSome then keysA m else keysA m ++ [k] := by
  unfold ensureA
  split
  · next h => simp [h]
  · next h => simp [h, keysA]

theorem nodup_keysA_ensureA (m : List (α × β)) (k : α) (d : β)
    (h : (keysA m).Nodup) : (keysA (ensureA m k d)).Nodup := by
  rw [keysA_ensureA]
  split
  · exact h
  · next hk =>
    have : k ∉ keysA m := by
      rw [mem_keysA_iff_lookupA]
      simpa using hk
    simp [List.nodup_append, h, this]

theorem lookupA_mem (m : List (α × β)) (k : α) (v : β)
    (h : lookupA m k = some v) : (k, v) ∈ m := by
  induction m with
  | nil => simp [lookupA] at h
  | cons p rest ih =>
    obtain ⟨a, b⟩ := p
    by_cases hka : k = a
    · subst hka
      simp [lookupA] at h
      simp [h]
    · simp [lookupA, hka] at h
      exact List.mem_cons_of_mem _ (ih h)

theorem nodup_keysA_foldl_eraseA (L : List α) (m : List (α × β))
    (h : (keysA m).Nodup) :
    (keysA (L.foldl (fun acc a => eraseA acc a) m)).Nodup := by
  induction L generalizing m with
  | nil => exact h
  | cons a L ih => exact ih _ (nodup_keysA_eraseA m a h)

theorem lookupA_foldl_eraseA (L : List α) (m : List (α × β)) (k : α)
    (h : (keysA m).Nodup) :
    lookupA (L.foldl (fun acc a => eraseA acc a) m) k =
      if k ∈ L then none else lookupA m k := by
  induction L generalizing m with
  | nil => simp
  | cons a L ih =>
    rw [List.foldl_cons, ih _ (nodup_keysA_eraseA m a h)]
    by_cases hka : k = a
    · subst hka
      by_cases hkL : k ∈ L
      · simp [hkL]
      · simp [hkL, lookupA_eraseA_self m k h]
    · by_cases hkL : k ∈ L
      · simp [hkL]
      · simp [hkL, hka, lookupA_eraseA_ne m a k hka]

omit [DecidableEq α] in
theorem keysA_filter_subset (m : List (α × β)) (p : α × β → Bool) :
    keysA (m.filter p) ⊆ keysA m := by
  unfold keysA
  exact ((List.filter_sublist m).map (fun q => q.1)).subset

theorem mem_keysA_filter (m : List (α × β)) (p : α × β → Bool) (k : α)
    (v : β) (h : (keysA m).Nodup) (hl : lookupA m k = some v) :
    k ∈ keysA (m.filter p) ↔ p (k, v) = true := by
  induction m with
  | nil => simp [lookupA] at hl
  | cons q rest ih =>
    obtain ⟨a, b⟩ := q
    rw [keysA] at h
    simp only [List.map_cons, List.nodup_cons] at h
    by_cases hka : k = a
    · subst hka
      have hvb : b = v := by simpa [lookupA] using hl
      subst hvb
      cases hp : p (k, b) with
      | true => simp [List.filter_cons, hp, keysA]
      | false =>
        have hnot : k ∉ keysA (rest.filter p) := fun hmem =>
          h.1 (keysA_filter_subset rest p hmem)
        simp [List.filter_cons, hp, hnot]
    · simp only [lookupA, if_neg hka] at hl
      have hrest := ih h.2 hl
      cases hp : p (a, b) with
      | true => simpa [List.filter_cons, hp, keysA, hka] using hrest
      | false => simpa [List.filter_cons, hp, keysA] using hrest

end AssocLemmas

/-- Fold preservation: a predicate stable under each step is stable under
the whole fold. -/
theorem foldl_preserve {σ γ : Type} (P : σ → Prop) (f : σ → γ → σ)
    (hf : ∀ s a, P s → P (f s a)) :
    ∀ (l : List γ) (s : σ), P s → P (l.foldl f s) := by
  intro l
  induction l with
  | nil => intro s hs; exact hs
  | cons a l ih => intro s hs; exact ih _ (hf s a hs)

theorem isEmpty_iff_nil {γ : Type} (l : List γ) : l.isEmpty = true ↔ l = [] := by
  cases l <;> simp [List.isEmpty]

/-! ### Projection lemmas for the stages of `disconnect` -/

theorem disconnect_conns_ac_self (s : State) (u : Nat) (w : Option Nat) :
    lookupA (disconnect_conns s u w).active_connections u
      = some (disconnectedConns s u w) := by
  cases w with
  | none => simp [disconnect_conns, disconnectedConns, lookupA_setA_self]
  | some ws =>
    simp [disconnect_conns, disconnectedConns, lookupA_setA_self,
      lookupA_ensureA_self]

theorem disconnect_conns_ac_ne (s : State) (u : Nat) (w : Option Nat)
    (u' : Nat) (h : u' ≠ u) :
    lookupA (disconnect_conns s u w).active_connections u'
      = lookupA s.active_connections u' := by
  cases w <;>
    simp [disconnect_conns,
      lookupA_setA_ne _ _ _ _ h, lookupA_ensureA_ne _ _ _ _ h]

theorem disconnect_conns_us (s : State) (u : Nat) (w : Option Nat) :
    (disconnect_conns s u w).user_sessions = s.user_sessions := by
  cases w <;> rfl

theorem disconnect_conns_off (s : State) (u : Nat) (w : Option Nat) :
    (disconnect_conns s u w).offline_messages = s.offline_messages := by
  cases w <;> rfl

theorem disconnect_conns_md_some (s : State) (u ws : Nat) :
    (disconnect_conns s u (some ws)).connection_metadata
      = eraseA s.connection_metadata ws := rfl

theorem disconnect_conns_ac_nodup (s : State) (u : Nat) (w : Option Nat)
    (h : (keysA s.active_connections).Nodup) :
    (keysA (disconnect_conns s u w).active_connections).Nodup := by
  cases w <;>
    exact nodup_keysA_setA _ _ _ (nodup_keysA_ensureA _ _ _ h)

theorem disconnect_conns_md_nodup (s : State) (u : Nat) (w : Option Nat)
    (h : (keysA s.connection_metadata).Nodup) :
    (keysA (disconnect_conns s u w).connection_metadata).Nodup := by
  cases w with
  | some ws => exact nodup_keysA_eraseA _ _ h
  | none => exact nodup_keysA_foldl_eraseA _ _ h

theorem drop_empty_entry_lookup_self (s : State) (u : Nat)
    (hnd : (keysA s.active_connections).Nodup) :
    lookupA (drop_empty_entry s u).active_connections u
      = if ((lookupA s.active_connections u).getD []).isEmpty then none
        else lookupA s.active_connections u := by
  unfold drop_empty_entry
  split
  · next h => simp [h, lookupA_eraseA_self _ _ hnd]
  · next h => simp [h]

theorem drop_empty_entry_lookup_ne (s : State) (u u' : Nat) (h : u' ≠ u) :
    lookupA (drop_empty_entry s u).active_connections u'
      = lookupA s.active_connections u' := by
  unfold drop_empty_entry
  split
  · exact lookupA_eraseA_ne _ _ _ h
  · rfl

theorem drop_empty_entry_us (s : State) (u : Nat) :
    (drop_empty_entry s u).user_sessions = s.user_sessions := by
  unfold drop_empty_entry
  split <;> rfl

theorem drop_empty_entry_md (s : State) (u : Nat) :
    (drop_empty_entry s u).connection_metadata = s.connection_metadata := by
  unfold drop_empty_entry
  split <;> rfl

theorem drop_empty_entry_off (s : State) (u : Nat) :
    (drop_empty_entry s u).offline_messages = s.offline_messages := by
  unfold drop_empty_entry
  split <;> rfl

theorem drop_empty_entry_ac_nodup (s : State) (u : Nat)
    (h : (keysA s.active_connections).Nodup) :
    (keysA (drop_empty_entry s u).active_connections).Nodup := by
  unfold drop_empty_entry
  split
  · exact nodup_keysA_eraseA _ _ h
  · exact h

theorem update_session_ac (s : State) (u : Nat) :
    (update_session_on_disconnect s u).active_connections
      = s.active_connections := by
  unfold update_session_on_disconnect
  split
  · rfl
  · split <;> rfl

theorem update_session_md (s : State) (u : Nat) :
    (update_session_on_disconnect s u).connection_metadata
      = s.connection_metadata := by
  unfold update_session_on_disconnect
  split
  · rfl
  · split <;> rfl

theorem update_session_off (s : State) (u : Nat) :
    (update_session_on_disconnect s u).offline_messages
      = s.offline_messages := by
  unfold update_session_on_disconnect
  split
  · rfl
  · split <;> rfl

theorem update_session_us_self (s : State) (u : Nat)
    (hnd : (keysA s.user_sessions).Nodup) :
    lookupA (update_session_on_disconnect s u).user_sessions u
      = match lookupA s.user_sessions u with
        | none => none
        | some sess =>
            if ((lookupA s.active_connections u).getD []).isEmpty then none
            else some { sess with active_connections :=
              ((lookupA s.active_connections u).getD []).length } := by
  unfold update_session_on_disconnect
  split
  · next heq => simp [heq]
  · next sess heq =>
    dsimp only
    split
    · next hemp =>
      exact lookupA_eraseA_self _ _ (nodup_keysA_setA _ _ _ hnd)
    · next hemp => exact lookupA_setA_self _ _ _

theorem update_session_us_ne (s : State) (u u' : Nat) (h : u' ≠ u) :
    lookupA (update_session_on_disconnect s u).user_sessions u'
      = lookupA s.user_sessions u' := by
  unfold update_session_on_disconnect
  split
  · rfl
  · split
    · next _ =>
      show lookupA (eraseA (setA s.user_sessions u _) u) u' = _
      rw [lookupA_eraseA_ne _ _ _ h, lookupA_setA_ne _ _ _ _ h]
    · next _ =>
      show lookupA (setA s.user_sessions u _) u' = _
      rw [lookupA_setA_ne _ _ _ _ h]

theorem update_session_us_nodup (s : State) (u : Nat)
    (h : (keysA s.user_sessions).Nodup) :
    (keysA (update_session_on_disconnect s u).user_sessions).Nodup := by
  unfold update_session_on_disconnect
  split
  · exact h
  · split
    · exact nodup_keysA_eraseA _ _ (nodup_keysA_setA _ _ _ h)
    · exact nodup_keysA_setA _ _ _ h

/-! ### Behaviour of `disconnect` on the registry and sessions -/

theorem disconnect_ac_self (s : State) (u : Nat) (w : Option Nat)
    (hnd : (keysA s.active_connections).Nodup) :
    lookupA (disconnect s u w).active_connections u
      = if (disconnectedConns s u w).isEmpty then none
        else some (disconnectedConns s u w) := by
  show lookupA (update_session_on_disconnect (drop_empty_entry
    (disconnect_conns s u w) u) u).active_connections u = _
  rw [update_session_ac,
    drop_empty_entry_lookup_self _ _ (disconnect_conns_ac_nodup s u w hnd),
    disconnect_conns_ac_self]
  simp

theorem disconnect_ac_ne (s : State) (u : Nat) (w : Option Nat) (u' : Nat)
    (h : u' ≠ u) :
    lookupA (disconnect s u w).active_connections u'
      = lookupA s.active_connections u' := by
  show lookupA (update_session_on_disconnect (drop_empty_entry
    (disconnect_conns s u w) u) u).active_connections u' = _
  rw [update_session_ac, drop_empty_entry_lookup_ne _ _ _ h,
    disconnect_conns_ac_ne _ _ _ _ h]

theorem disconnect_us_self (s : State) (u : Nat) (w : Option Nat)
    (hndac : (keysA s.active_connections).Nodup)
    (hndus : (keysA s.user_sessions).Nodup) :
    lookupA (disconnect s u w).user_sessions u
      = match lookupA s.user_sessions u with
        | none => none
        | some sess =>
            if (disconnectedConns s u w).isEmpty then none
            else some { sess with active_connections :=
              (disconnectedConns s u w).length } := by
  show lookupA (update_session_on_disconnect (drop_empty_entry
    (disconnect_conns s u w) u) u).user_sessions u = _
  rw [update_session_us_self _ _
    (by rw [drop_empty_entry_us, disconnect_conns_us]; exact hndus)]
  rw [drop_empty_entry_us, disconnect_conns_us,
    drop_empty_entry_lookup_self _ _ (disconnect_conns_ac_nodup s u w hndac),
    disconnect_conns_ac_self]
  cases lookupA s.user_sessions u with
  | none => rfl
  | some sess =>
    cases hemp : (disconnectedConns s u w).isEmpty <;> simp [hemp]

theorem disconnect_us_ne (s : State) (u : Nat) (w : Option Nat) (u' : Nat)
    (h : u' ≠ u) :
    lookupA (disconnect s u w).user_sessions u'
      = lookupA s.user_sessions u' := by
  show lookupA (update_session_on_disconnect (drop_empty_entry
    (disconnect_conns s u w) u) u).user_sessions u' = _
  rw [update_session_us_ne _ _ _ h, drop_empty_entry_us, disconnect_conns_us]

theorem disconnect_md_some (s : State) (u ws : Nat) :
    (disconnect s u (some ws)).connection_metadata
      = eraseA s.connection_metadata ws := by
  show (update_session_on_disconnect (drop_empty_entry
    (disconnect_conns s u (some ws)) u) u).connection_metadata = _
  rw [update_session_md, drop_empty_entry_md, disconnect_conns_md_some]

theorem disconnect_off (s : State) (u : Nat) (w : Option Nat) :
    (disconnect s u w).offline_messages = s.offline_messages := by
  show (update_session_on_disconnect (drop_empty_entry
    (disconnect_conns s u w) u) u).offline_messages = _
  rw [update_session_off, drop_empty_entry_off, disconnect_conns_off]

theorem disconnect_wf (s : State) (u : Nat) (w : Option Nat) (h : WF s) :
    WF (disconnect s u w) := by
  obtain ⟨h1, h2, h3, h4⟩ := h
  refine ⟨?_, ?_, ?_, ?_⟩
  · show (keysA (update_session_on_disconnect (drop_empty_entry
      (disconnect_conns s u w) u) u).active_connections).Nodup
    rw [update_session_ac]
    exact drop_empty_entry_ac_nodup _ _ (disconnect_conns_ac_nodup s u w h1)
  · show (keysA (update_session_on_disconnect (drop_empty_entry
      (disconnect_conns s u w) u) u).user_sessions).Nodup
    apply update_session_us_nodup
    rw [drop_empty_entry_us, disconnect_conns_us]
    exact h2
  · show (keysA (update_session_on_disconnect (drop_empty_entry
      (disconnect_conns s u w) u) u).connection_metadata).Nodup
    rw [update_session_md, drop_empty_entry_md]
    exact disconnect_conns_md_nodup s u w h3
  · show (keysA (update_session_on_disconnect (drop_empty_entry
      (disconnect_conns s u w) u) u).offline_messages).Nodup
    rw [update_session_off, drop_empty_entry_off, disconnect_conns_off]
    exact h4

theorem disconnectedConns_of_none (s : State) (u : Nat) (w : Option Nat)
    (h : lookupA s.active_connections u = none) :
    disconnectedConns s u w = [] := by
  cases w <;> simp [disconnectedConns, h]

theorem disconnect_inv (s : State) (u : Nat) (w : Option Nat) (hWF : WF s)
    (hInv : Inv s) : Inv (disconnect s u w) := by
  obtain ⟨hndac, hndus, _, _⟩ := hWF
  constructor
  · intro u' cs hlk
    by_cases hu : u' = u
    · subst hu
      rw [disconnect_ac_self s u' w hndac] at hlk
      cases hemp : (disconnectedConns s u' w).isEmpty with
      | true => rw [hemp] at hlk; simp at hlk
      | false =>
        rw [hemp] at hlk
        simp only [Bool.false_eq_true, if_neg] at hlk
        cases hlk
        intro hnil
        rw [hnil] at hemp
        simp at hemp
    · rw [disconnect_ac_ne s u w u' hu] at hlk
      exact hInv.1 u' cs hlk
  · intro u'
    by_cases hu : u' = u
    · subst hu
      rw [disconnect_ac_self s u' w hndac,
        disconnect_us_self s u' w hndac hndus]
      cases hus : lookupA s.user_sessions u' with
      | none =>
        have h2 := hInv.2 u'
        rw [hus] at h2
        have hac : lookupA s.active_connections u' = none := by
          cases hac : lookupA s.active_connections u' with
          | none => rfl
          | some cs => rw [hac] at h2; simp at h2
        rw [disconnectedConns_of_none s u' w hac]
        rfl
      | some sess =>
        cases hemp : (disconnectedConns s u' w).isEmpty <;> simp [hemp]
    · rw [disconnect_ac_ne s u w u' hu, disconnect_us_ne s u w u' hu]
      exact hInv.2 u'

/-! ### Preservation of the invariant by every manager operation -/

/-- Registry well-formedness plus the registry invariant. -/
def WFInv (s : State) : Prop := WF s ∧ Inv s

theorem disconnect_wfinv (s : State) (u : Nat) (w : Option Nat)
    (h : WFInv s) : WFInv (disconnect s u w) :=
  ⟨disconnect_wf s u w h.1, disconnect_inv s u w h.1 h.2⟩

theorem queue_offline_message_wfinv (s : State) (u : Nat) (m : Dict)
    (h : WFInv s) : WFInv (queue_offline_message s u m) := by
  obtain ⟨⟨h1, h2, h3, h4⟩, hInv⟩ := h
  exact ⟨⟨h1, h2, h3, nodup_keysA_setA _ _ _ h4⟩, hInv⟩

theorem send_to_user_wfinv (s : State) (u : Nat) (m : Dict) (now : Nat)
    (fail : Nat → Bool) (h : WFInv s) : WFInv (send_to_user s u m now fail).1 := by
  unfold send_to_user
  split
  · next conns _ =>
    dsimp only
    have hfold := foldl_preserve
      (fun acc : State × Bool × List Ev => WFInv acc.1)
      (fun acc ws =>
        if fail ws then (disconnect acc.1 u (some ws), acc.2.1, acc.2.2)
        else (acc.1, true, acc.2.2 ++ [(u, ws, stamp_message m now)]))
      (by
        intro acc ws hacc
        by_cases hf : fail ws = true
        · simpa [hf] using disconnect_wfinv acc.1 u (some ws) hacc
        · simpa [hf] using hacc)
      conns (s, false, []) h
    split
    · exact hfold
    · exact queue_offline_message_wfinv _ _ _ hfold
  · exact queue_offline_message_wfinv _ _ _ h

theorem send_offline_messages_wfinv (s : State) (u now : Nat)
    (fail : Nat → Bool) (h : WFInv s) :
    WFInv (send_offline_messages s u now fail).1 := by
  unfold send_offline_messages
  split
  · exact h
  · next messages _ =>
    dsimp only
    have hfold := foldl_preserve
      (fun acc : State × List Ev × List Dict => WFInv acc.1)
      (fun acc mm =>
        ((send_to_user acc.1 u (wrap_offline mm) now fail).1,
          acc.2.1 ++ (send_to_user acc.1 u (wrap_offline mm) now fail).2.2.1,
          acc.2.2 ++ [wrap_offline mm]))
      (fun acc mm hacc => send_to_user_wfinv acc.1 u (wrap_offline mm) now fail hacc)
      messages (s, [], []) h
    obtain ⟨⟨h1, h2, h3, h4⟩, hInv⟩ := hfold
    exact ⟨⟨h1, h2, h3, nodup_keysA_setA _ _ _ h4⟩, hInv⟩

theorem connect_register_wfinv (s : State) (ws u : Nat) (sd : Option Dict)
    (now sid : Nat) (h : WFInv s) :
    WFInv (connect_register s ws u sd now sid) := by
  obtain ⟨⟨h1, h2, h3, h4⟩, hInv1, hInv2⟩ := h
  refine ⟨⟨nodup_keysA_setA _ _ _ h1, nodup_keysA_setA _ _ _ h2,
    nodup_keysA_setA _ _ _ h3, h4⟩, ?_, ?_⟩
  · intro u' cs hlk
    by_cases hu : u' = u
    · subst hu
      rw [show (connect_register s ws u' sd now sid).active_connections
          = setA s.active_connections u'
              (if ws ∈ (lookupA s.active_connections u').getD [] then
                (lookupA s.active_connections u').getD []
              else (lookupA s.active_connections u').getD [] ++ [ws]) from rfl,
        lookupA_setA_self] at hlk
      cases hlk
      split
      · next hmem => exact List.ne_nil_of_mem hmem
      · simp
    · rw [show (connect_register s ws u sd now sid).active_connections
          = setA s.active_connections u _ from rfl,
        lookupA_setA_ne _ _ _ _ hu] at hlk
      exact hInv1 u' cs hlk
  · intro u'
    by_cases hu : u' = u
    · subst hu
      rw [show (connect_register s ws u' sd now sid).user_sessions
          = setA s.user_sessions u' _ from rfl,
        show (connect_register s ws u' sd now sid).active_connections
          = setA s.active_connections u' _ from rfl,
        lookupA_setA_self, lookupA_setA_self]
      rfl
    · rw [show (connect_register s ws u sd now sid).user_sessions
          = setA s.user_sessions u _ from rfl,
        show (connect_register s ws u sd now sid).active_connections
          = setA s.active_connections u _ from rfl,
        lookupA_setA_ne _ _ _ _ hu, lookupA_setA_ne _ _ _ _ hu]
      exact hInv2 u'

theorem connect_wfinv (s : State) (ws u : Nat) (sd : Option Dict)
    (now sid : Nat) (af : Bool) (fail : Nat → Bool) (h : WFInv s) :
    WFInv (connect s ws u sd now sid af fail).1 := by
  unfold connect
  split
  · exact disconnect_wfinv s u (some ws) h
  · dsimp only
    split
    · exact disconnect_wfinv _ u (some ws)
        (connect_register_wfinv s ws u sd now sid h)
    · exact send_offline_messages_wfinv _ u now fail
        (connect_register_wfinv s ws u sd now sid h)

theorem broadcast_send_conn_wfinv (u : Nat) (m : Dict) (fail : Nat → Bool)
    (acc2 : State × List Ev) (ws : Nat) (h : WFInv acc2.1) :
    WFInv (broadcast_send_conn u m fail acc2 ws).1 := by
  unfold broadcast_send_conn
  by_cases hf : fail ws = true
  · simpa [hf] using disconnect_wfinv acc2.1 u (some ws) h
  · simpa [hf] using h

theorem broadcast_step_wfinv (m : Dict) (ex : Option Nat)
    (fail : Nat → Bool) (n0 : Nat) (acc : State × List Ev × Bool)
    (entry : Nat × List Nat) (h : WFInv acc.1) :
    WFInv (broadcast_step m ex fail n0 acc entry).1 := by
  unfold broadcast_step
  split
  · exact h
  · split
    · exact h
    · split
      · exact h
      · exact foldl_preserve (fun acc2 : State × List Ev => WFInv acc2.1)
          (broadcast_send_conn entry.1 m fail)
          (fun acc2 ws => broadcast_send_conn_wfinv entry.1 m fail acc2 ws)
          entry.2 (acc.1, acc.2.1) h

theorem broadcast_to_all_wfinv (s : State) (m : Dict)
    (ex : Option Nat) (now : Nat) (fail : Nat → Bool) (h : WFInv s) :
    WFInv (broadcast_to_all s m ex now fail).1 := by
  unfold broadcast_to_all
  exact foldl_preserve (fun acc : State × List Ev × Bool => WFInv acc.1)
    (broadcast_step (stamp_message m now) ex fail s.active_connections.length)
    (fun acc entry hacc =>
      broadcast_step_wfinv (stamp_message m now) ex fail
        s.active_connections.length acc entry hacc)
    s.active_connections (s, [], false) h

theorem cleanup_wfinv (s : State) (now : Nat) (h : WFInv s) :
    WFInv (cleanup_inactive_connections s now) := by
  unfold cleanup_inactive_connections
  exact foldl_preserve (fun s' : State => WFInv s')
    _ (fun s' p hp => disconnect_wfinv s' p.2.user_id (some p.1) hp) _ s h

theorem sweep_wfinv (s : State) (t now : Nat) (h : WFInv s) :
    WFInv (sweep s t now) := by
  unfold sweep
  exact foldl_preserve (fun s' : State => WFInv s')
    _ (fun s' p hp => disconnect_wfinv s' p.2.user_id (some p.1) hp) _ s h

theorem applyOp_wfinv (s : State) (op : Op) (h : WFInv s) :
    WFInv (applyOp s op) := by
  cases op with
  | connectOp ws u sd now sid af f => exact connect_wfinv s ws u sd now sid af f h
  | disconnectOp u w => exact disconnect_wfinv s u w h
  | sendToUserOp u m now f => exact send_to_user_wfinv s u m now f h
  | broadcastOp m ex now f => exact broadcast_to_all_wfinv s m ex now f h
  | cleanupOp now => exact cleanup_wfinv s now h

theorem initialState_wfinv : WFInv initialState := by
  refine ⟨⟨?_, ?_, ?_, ?_⟩, ?_, ?_⟩ <;>
    simp [initialState, keysA, lookupA, Inv]

theorem applyOps_wfinv (ops : List Op) :
    WFInv (applyOps initialState ops) :=
  foldl_preserve WFInv applyOp applyOp_wfinv ops initialState initialState_wfinv

/-! ### Facts about `send_to_user` and the offline queue -/

theorem send_fold_flag (u : Nat) (msg : Dict) (fail : Nat → Bool)
    (conns : List Nat) :
    ∀ acc : State × Bool × List Ev, (acc.2.1 = true ↔ acc.2.2 ≠ []) →
      ((conns.foldl (fun acc ws =>
          if fail ws then (disconnect acc.1 u (some ws), acc.2.1, acc.2.2)
          else (acc.1, true, acc.2.2 ++ [(u, ws, msg)])) acc).2.1 = true
        ↔ (conns.foldl (fun acc ws =>
          if fail ws then (disconnect acc.1 u (some ws), acc.2.1, acc.2.2)
          else (acc.1, true, acc.2.2 ++ [(u, ws, msg)])) acc).2.2 ≠ []) := by
  induction conns with
  | nil => intro acc h; exact h
  | cons ws conns ih =>
    intro acc h
    rw [List.foldl_cons]
    by_cases hf : fail ws = true
    · simp only [hf, if_pos]
      exact ih _ h
    · simp only [Bool.not_eq_true] at hf
      simp only [hf, Bool.false_eq_true, if_neg, if_false]
      exact ih _ (by simp)

theorem send_to_user_flag_iff_events (s : State) (u : Nat) (msg : Dict)
    (now : Nat) (fail : Nat → Bool) :
    ((send_to_user s u msg now fail).2.1 = true
      ↔ (send_to_user s u msg now fail).2.2.1 ≠ []) := by
  unfold send_to_user
  split
  · next conns _ =>
    dsimp only
    have hfold := send_fold_flag u (stamp_message msg now) fail conns
      (s, false, []) (by simp)
    split
    · next hflag => simpa [hflag] using hfold
    · next hflag =>
      have hev := not_not.mp (mt hfold.mpr hflag)
      simp [hev]
  · simp

theorem send_to_user_offline (s : State) (u : Nat) (msg : Dict) (now : Nat)
    (fail : Nat → Bool) (h : get_user_connection_count s u = 0) :
    (send_to_user s u msg now fail).1
        = queue_offline_message s u (stamp_message msg now)
    ∧ (send_to_user s u msg now fail).2.1 = false
    ∧ (send_to_user s u msg now fail).2.2.1 = [] := by
  unfold get_user_connection_count at h
  unfold send_to_user
  cases hac : lookupA s.active_connections u with
  | none => simp
  | some cs =>
    rw [hac] at h
    have hnil : cs = [] := by simpa using h
    subst hnil
    simp

theorem offline_queue_queue_offline_message (s : State) (u : Nat) (m : Dict) :
    offline_queue (queue_offline_message s u m) u
      = offline_append (offline_queue s u) m := by
  unfold offline_queue queue_offline_message
  simp [lookupA_setA_self]

theorem offline_append_eq_lastN (q : List Dict) (m : Dict) :
    offline_append q m = lastN 100 (q ++ [m]) := by
  unfold offline_append lastN
  dsimp only
  split
  · rfl
  · next h =>
    have h0 : (q ++ [m]).length - 100 = 0 := by
      simp only [List.length_append, List.length_singleton] at h ⊢
      omega
    rw [h0, List.drop_zero]

theorem offline_append_length (q : List Dict) (m : Dict)
    (h : q.length ≤ 100) : (offline_append q m).length ≤ 100 := by
  unfold offline_append
  dsimp only
  split
  · next hgt => rw [List.length_drop]; omega
  · next hle =>
    simp only [List.length_append, List.length_singleton, Nat.not_lt] at hle ⊢
    omega

theorem lastN_append_lastN {γ : Type} (xs ys : List γ) (n : Nat) :
    lastN n (lastN n xs ++ ys) = lastN n (xs ++ ys) := by
  unfold lastN
  by_cases h : xs.length ≤ n
  · have h0 : xs.length - n = 0 := Nat.sub_eq_zero_of_le h
    rw [h0, List.drop_zero]
  · have hlt : n < xs.length := Nat.lt_of_not_le h
    have hdlen : (xs.drop (xs.length - n)).length = n := by
      rw [List.length_drop]; omega
    rw [List.length_append, List.length_append, hdlen]
    have h1 : n + ys.length - n = ys.length := by omega
    have h2 : xs.length + ys.length - n = (xs.length - n) + ys.length := by
      omega
    rw [h1, h2, ← List.drop_drop,
      List.drop_append_of_le_length (by omega : xs.length - n ≤ xs.length)]

theorem foldl_offline_append (msgs : List Dict) :
    ∀ q : List Dict, q.length ≤ 100 →
      msgs.foldl offline_append q = lastN 100 (q ++ msgs) := by
  induction msgs with
  | nil =>
    intro q h
    unfold lastN
    rw [List.append_nil]
    have h0 : q.length - 100 = 0 := by omega
    rw [h0, List.drop_zero]
    rfl
  | cons m msgs ih =>
    intro q h
    rw [List.foldl_cons, ih _ (offline_append_length q m h),
      offline_append_eq_lastN, lastN_append_lastN]
    simp

theorem send_fold_offline (u now : Nat) (msgs : List Dict) :
    ∀ s : State, lookupA s.active_connections u = none →
      lookupA (msgs.foldl
          (fun st m => (send_to_user st u m now (fun _ => false)).1)
          s).active_connections u = none
      ∧ offline_queue (msgs.foldl
          (fun st m => (send_to_user st u m now (fun _ => false)).1) s) u
        = (msgs.map (fun m => stamp_message m now)).foldl offline_append
            (offline_queue s u) := by
  induction msgs with
  | nil => intro s h; exact ⟨h, rfl⟩
  | cons m msgs ih =>
    intro s h
    have hstep := send_to_user_offline s u m now (fun _ => false)
      (by unfold get_user_connection_count; rw [h]; rfl)
    rw [List.foldl_cons, hstep.1, List.map_cons, List.foldl_cons]
    have hac : lookupA (queue_offline_message s u
        (stamp_message m now)).active_connections u = none := h
    have hrest := ih (queue_offline_message s u (stamp_message m now)) hac
    exact ⟨hrest.1, by rw [hrest.2, offline_queue_queue_offline_message]⟩

/-! ### Facts about `_send_offline_messages` -/

theorem send_offline_dispatched (s : State) (u now : Nat)
    (fail : Nat → Bool) :
    (send_offline_messages s u now fail).2.2
      = (offline_queue s u).map wrap_offline := by
  unfold send_offline_messages offline_queue
  cases hl : lookupA s.offline_messages u with
  | none => simp
  | some messages =>
    dsimp only
    have hgen : ∀ (msgs : List Dict) (acc : State × List Ev × List Dict),
        (msgs.foldl (fun acc m =>
          ((send_to_user acc.1 u (wrap_offline m) now fail).1,
            acc.2.1 ++ (send_to_user acc.1 u (wrap_offline m) now fail).2.2.1,
            acc.2.2 ++ [wrap_offline m])) acc).2.2
          = acc.2.2 ++ msgs.map wrap_offline := by
      intro msgs
      induction msgs with
      | nil => intro acc; simp
      | cons mm msgs ih2 =>
        intro acc
        rw [List.foldl_cons, ih2]
        simp
    simpa using hgen messages (s, [], [])

theorem send_offline_queue_empty (s : State) (u now : Nat)
    (fail : Nat → Bool) :
    offline_queue (send_offline_messages s u now fail).1 u = [] := by
  unfold send_offline_messages offline_queue
  cases hl : lookupA s.offline_messages u with
  | none => simp [hl]
  | some messages =>
    dsimp only
    simp [lookupA_setA_self]

/-! ### The message object as delivered -/

theorem send_to_user_msg_out (s : State) (u : Nat) (msg : Dict) (now : Nat)
    (fail : Nat → Bool) :
    (send_to_user s u msg now fail).2.2.2 = stamp_message msg now := by
  unfold send_to_user
  split
  · dsimp only
    split <;> rfl
  · rfl

theorem broadcast_msg_out (s : State) (msg : Dict) (ex : Option Nat)
    (now : Nat) (fail : Nat → Bool) :
    (broadcast_to_all s msg ex now fail).2.2 = stamp_message msg now := rfl

theorem send_to_user_events_user (s : State) (u : Nat) (msg : Dict)
    (now : Nat) (fail : Nat → Bool) :
    ∀ ev ∈ (send_to_user s u msg now fail).2.2.1, ev.1 = u := by
  unfold send_to_user
  split
  · next conns _ =>
    dsimp only
    have hfold := foldl_preserve
      (fun acc : State × Bool × List Ev => ∀ ev ∈ acc.2.2, ev.1 = u)
      (fun acc ws =>
        if fail ws then (disconnect acc.1 u (some ws), acc.2.1, acc.2.2)
        else (acc.1, true, acc.2.2 ++ [(u, ws, stamp_message msg now)]))
      (by
        intro acc ws hacc
        by_cases hf : fail ws = true
        · simpa [hf] using hacc
        · simp only [hf, Bool.false_eq_true, if_neg, if_false]
          intro ev hev
          rcases List.mem_append.mp hev with h1 | h2
          · exact hacc ev h1
          · rw [List.mem_singleton.mp h2])
      conns (s, false, []) (by simp)
    split
    · exact hfold
    · exact hfold
  · simp

/-! ### Broadcast without delivery failures: the exact event list -/

theorem broadcast_inner_nofail (u : Nat) (msg : Dict) (conns : List Nat) :
    ∀ acc : State × List Ev,
      ((conns.foldl (broadcast_send_conn u msg (fun _ => false))
          acc).1.active_connections = acc.1.active_connections)
      ∧ (conns.foldl (broadcast_send_conn u msg (fun _ => false)) acc).2
        = acc.2 ++ conns.map (fun ws => (u, ws, msg)) := by
  induction conns with
  | nil => intro acc; exact ⟨rfl, by simp⟩
  | cons ws conns ih =>
    intro acc
    rw [List.foldl_cons]
    have hconn : broadcast_send_conn u msg (fun _ => false) acc ws
        = ({ acc.1 with messages_sent := acc.1.messages_sent + 1 },
          acc.2 ++ [(u, ws, msg)]) := by
      unfold broadcast_send_conn
      simp
    rw [hconn]
    have hstep := ih ({ acc.1 with messages_sent := acc.1.messages_sent + 1 },
      acc.2 ++ [(u, ws, msg)])
    exact ⟨hstep.1, by rw [hstep.2]; simp⟩

theorem broadcast_step_nofail_skip (msg : Dict) (ex : Option Nat) (n0 : Nat)
    (st : State) (evs : List Ev) (e : Nat × List Nat)
    (hlen : st.active_connections.length = n0)
    (hsk : broadcast_skip ex e.1 = true) :
    broadcast_step msg ex (fun _ => false) n0 (st, evs, false) e
      = (st, evs, false) := by
  unfold broadcast_step
  simp [hlen, hsk]

theorem broadcast_step_nofail_send (msg : Dict) (ex : Option Nat) (n0 : Nat)
    (st : State) (evs : List Ev) (e : Nat × List Nat)
    (hlen : st.active_connections.length = n0)
    (hsk : broadcast_skip ex e.1 = false) :
    broadcast_step msg ex (fun _ => false) n0 (st, evs, false) e
      = ((e.2.foldl (broadcast_send_conn e.1 msg (fun _ => false))
            (st, evs)).1,
         (e.2.foldl (broadcast_send_conn e.1 msg (fun _ => false))
            (st, evs)).2, false) := by
  unfold broadcast_step
  simp [hlen, hsk]

theorem broadcast_fold_nofail (ex : Option Nat) (msg : Dict) (n0 : Nat)
    (items : List (Nat × List Nat)) :
    ∀ (st : State) (evs : List Ev), st.active_connections.length = n0 →
      (items.foldl (broadcast_step msg ex (fun _ => false) n0)
          (st, evs, false)).2.1
        = evs ++ items.flatMap (fun e =>
            if broadcast_skip ex e.1 then []
            else e.2.map (fun ws => (e.1, ws, msg)))
      ∧ (items.foldl (broadcast_step msg ex (fun _ => false) n0)
          (st, evs, false)).1.active_connections
        = st.active_connections := by
  induction items with
  | nil => intro st evs h; exact ⟨by simp, rfl⟩
  | cons e items ih =>
    intro st evs h
    rw [List.foldl_cons]
    cases hsk : broadcast_skip ex e.1 with
    | true =>
      rw [broadcast_step_nofail_skip msg ex n0 st evs e h hsk]
      have hrest := ih st evs h
      refine ⟨?_, hrest.2⟩
      rw [hrest.1]
      simp [hsk]
    | false =>
      rw [broadcast_step_nofail_send msg ex n0 st evs e h hsk]
      have hinner := broadcast_inner_nofail e.1 msg e.2 (st, evs)
      have hrest := ih (e.2.foldl (broadcast_send_conn e.1 msg
          (fun _ => false)) (st, evs)).1
        (e.2.foldl (broadcast_send_conn e.1 msg (fun _ => false)) (st, evs)).2
        (by rw [hinner.1]; exact h)
      refine ⟨?_, by rw [hrest.2, hinner.1]⟩
      rw [hrest.1, hinner.2]
      simp [hsk]

theorem broadcast_events_nofail (s : State) (msg : Dict) (ex : Option Nat)
    (now : Nat) :
    (broadcast_to_all s msg ex now (fun _ => false)).2.1
      = s.active_connections.flatMap (fun e =>
          if broadcast_skip ex e.1 then []
          else e.2.map (fun ws => (e.1, ws, stamp_message msg now))) := by
  unfold broadcast_to_all
  exact (broadcast_fold_nofail ex (stamp_message msg now)
    s.active_connections.length s.active_connections s [] rfl).1

/-! ### Metadata after the idle sweep -/

theorem foldl_disconnect_md (L : List (Nat × Meta)) :
    ∀ s : State,
      (L.foldl (fun s' p => disconnect s' p.2.user_id (some p.1))
          s).connection_metadata
        = (keysA L).foldl (fun md c => eraseA md c) s.connection_metadata := by
  induction L with
  | nil => intro s; rfl
  | cons p L ih =>
    intro s
    rw [List.foldl_cons, ih, disconnect_md_some,
      show keysA (p :: L) = p.1 :: keysA L from rfl, List.foldl_cons]

theorem sweep_metadata (s : State) (t now : Nat) :
    (sweep s t now).connection_metadata
      = (keysA (s.connection_metadata.filter
            (fun p => decide (t < now - p.2.connected_at)))).foldl
          (fun md c => eraseA md c) s.connection_metadata := by
  unfold sweep
  exact foldl_disconnect_md _ s

/-! ### The claims -/

/-- C1: after every sequence of operations (connect, disconnect,
send_to_user, broadcast_to_all, cleanup sweep) starting from the fresh
manager, a user id `u` appears in `get_active_users()` iff
`get_user_connection_count(u) > 0`, and a `user_sessions` entry for `u`
exists iff `u` has at least one live connection. -/
theorem claim_C1 (ops : List Op) (u : Nat) :
    (u ∈ get_active_users (applyOps initialState ops)
      ↔ 0 < get_user_connection_count (applyOps initialState ops) u)
    ∧ ((get_user_session (applyOps initialState ops) u).isSome = true
      ↔ 0 < get_user_connection_count (applyOps initialState ops) u) := by
  have h : WF (applyOps initialState ops) ∧ Inv (applyOps initialState ops) :=
    applyOps_wfinv ops
  obtain ⟨hWF, hInv⟩ := h
  constructor
  · unfold get_active_users get_user_connection_count
    rw [mem_keysA_iff_lookupA]
    cases hac : lookupA (applyOps initialState ops).active_connections u with
    | none => simp
    | some cs =>
      have hne := hInv.1 u cs hac
      simp [List.length_pos, hne]
  · unfold get_user_session get_user_connection_count
    rw [hInv.2 u]
    cases hac : lookupA (applyOps initialState ops).active_connections u with
    | none => simp
    | some cs =>
      have hne := hInv.1 u cs hac
      simp [List.length_pos, hne]

/-- C2: enqueuing 105 messages for an offline user and then flushing
returns exactly the 100 most recently enqueued messages (as stamped), in
FIFO order; and in general each enqueue leaves at most 100 entries, always
the newest ones. -/
theorem claim_C2 (u now : Nat) (msgs : List Dict) (h : msgs.length = 105) :
    offline_queue (msgs.foldl
        (fun st m => (send_to_user st u m now (fun _ => false)).1)
        initialState) u
      = (msgs.map (fun m => stamp_message m now)).drop 5
    ∧ (send_offline_messages (msgs.foldl
        (fun st m => (send_to_user st u m now (fun _ => false)).1)
        initialState) u now (fun _ => false)).2.2
      = ((msgs.map (fun m => stamp_message m now)).drop 5).map wrap_offline
    ∧ ∀ (q : List Dict) (m : Dict), q.length ≤ 100 →
        (offline_append q m).length ≤ 100
        ∧ offline_append q m = lastN 100 (q ++ [m]) := by
  have hbase : lookupA initialState.active_connections u = none := rfl
  have hfold := send_fold_offline u now msgs initialState hbase
  have hq : offline_queue (msgs.foldl
      (fun st m => (send_to_user st u m now (fun _ => false)).1)
      initialState) u = (msgs.map (fun m => stamp_message m now)).drop 5 := by
    rw [hfold.2, show offline_queue initialState u = [] from rfl,
      foldl_offline_append _ [] (by simp)]
    unfold lastN
    rw [List.nil_append]
    have hlen : (msgs.map (fun m => stamp_message m now)).length = 105 := by
      rw [List.length_map, h]
    rw [hlen]
  refine ⟨hq, ?_, ?_⟩
  · rw [send_offline_dispatched, hq]
  · intro q m hqlen
    exact ⟨offline_append_length q m hqlen, offline_append_eq_lastN q m⟩

/-- Concrete batch of 105 distinct messages for the C2 witness. -/
def c2msgs : List Dict := (List.range 105).map (fun i => [("i", J.num i)])

/-- Witness for C2 at a concrete offline user and batch of 105 messages. -/
theorem claim_C2_witness :
    c2msgs.length = 105
    ∧ offline_queue (c2msgs.foldl
        (fun st m => (send_to_user st 1 m 7 (fun _ => false)).1)
        initialState) 1
      = (c2msgs.map (fun m => stamp_message m 7)).drop 5 :=
  ⟨by decide, (claim_C2 1 7 c2msgs (by decide)).1⟩

/-- Concrete manager state for the C3 counterexample: user `0` is online
with socket `1`, user `7` is online with socket `2`. -/
def c3state : State := applyOps initialState
  [Op.connectOp 1 0 none 5 11 false (fun _ => false),
   Op.connectOp 2 7 none 6 12 false (fun _ => false)]

/-- C3 counterexample: broadcasting with `exclude_user = 0` still delivers
to user `0`'s connection, because `if exclude_user and ...` treats `0` as
falsy — so the claim "for every user id X ... none of X's connections"
fails at `X = 0`. -/
theorem claim_C3_counterexample :
    0 ∈ ((broadcast_to_all c3state [("type", J.str "hello")] (some 0) 9
        (fun _ => false)).2.1.map (fun ev => ev.1)) := by decide

/-- C3 (amended): for every user id `X ≠ 0`, broadcasting with
`exclude_user = X` and no delivery failures delivers the stamped message
to every connection of every other registered user and to none of `X`'s
connections; with `X = 0` the exclusion is ignored (see the
counterexample). -/
theorem claim_C3 (s : State) (msg : Dict) (x now : Nat) (hx : x ≠ 0) :
    (∀ ev ∈ (broadcast_to_all s msg (some x) now (fun _ => false)).2.1,
      ev.1 ≠ x)
    ∧ ∀ u conns, lookupA s.active_connections u = some conns → u ≠ x →
        ∀ ws ∈ conns,
          (u, ws, stamp_message msg now)
            ∈ (broadcast_to_all s msg (some x) now (fun _ => false)).2.1 := by
  have hb : (x != 0) = true := by simpa using hx
  simp only [broadcast_events_nofail s msg (some x) now]
  constructor
  · intro ev hmem
    rw [List.mem_flatMap] at hmem
    obtain ⟨e, hel, hev2⟩ := hmem
    cases hsk : broadcast_skip (some x) e.1 with
    | true =>
      rw [hsk] at hev2
      simp at hev2
    | false =>
      have hne : (e.1 == x) = false := by
        have h2 := hsk
        rw [show broadcast_skip (some x) e.1 = (x != 0 && e.1 == x)
          from rfl, hb, Bool.true_and] at h2
        exact h2
      rw [hsk] at hev2
      obtain ⟨ws, hws, hev3⟩ := List.mem_map.mp hev2
      rw [← hev3]
      simpa using hne
  · intro u conns hlk hne ws hws
    rw [List.mem_flatMap]
    refine ⟨(u, conns), lookupA_mem _ _ _ hlk, ?_⟩
    have hsk : broadcast_skip (some x) u = false := by
      unfold broadcast_skip
      simp [hne]
    rw [show broadcast_skip (some x) (u, conns).1 = false from hsk]
    exact List.mem_map_of_mem _ hws

/-- Concrete manager state for the C3 witness: users `4` and `7` online. -/
def c3wstate : State := applyOps initialState
  [Op.connectOp 3 4 none 5 31 false (fun _ => false),
   Op.connectOp 4 7 none 6 32 false (fun _ => false)]

/-- Witness for the amended C3 at the nonzero excluded user `7`. -/
theorem claim_C3_witness :
    (∀ ev ∈ (broadcast_to_all c3wstate [("k", J.null)] (some 7) 9
        (fun _ => false)).2.1, ev.1 ≠ 7)
    ∧ ∀ u conns, lookupA c3wstate.active_connections u = some conns →
        u ≠ 7 → ∀ ws ∈ conns,
          (u, ws, stamp_message [("k", J.null)] 9)
            ∈ (broadcast_to_all c3wstate [("k", J.null)] (some 7) 9
                (fun _ => false)).2.1 :=
  claim_C3 c3wstate [("k", J.null)] 7 9 (by decide)

/-- Concrete manager state for C4: user `5` online with socket `1`,
established at instant `10`. -/
def c4state : State := applyOps initialState
  [Op.connectOp 1 5 none 10 41 false (fun _ => false)]

/-- C4 counterexample: a sweep with `idle_threshold = 0` performed at the
establishment instant keeps the connection (age `0` is not strictly
greater than `0`), contradicting "removes every currently registered
connection"; moreover the code's sweep takes no threshold at all. -/
theorem claim_C4_counterexample :
    get_user_connection_count c4state 5 = 1
    ∧ get_user_connection_count (sweep c4state 0 10) 5 = 1
    ∧ (lookupA (sweep c4state 0 10).connection_metadata 1).isSome = true := by
  refine ⟨by decide, by decide, by decide⟩

/-- C4 (amended): the code's sweep hard-codes the threshold: the
spec-modelled `sweep` at threshold 3600 is exactly
`cleanup_inactive_connections`; and a sweep unregisters exactly those
connections whose age since establishment STRICTLY exceeds the threshold —
all others keep their metadata entry untouched. -/
theorem claim_C4 (s : State) (threshold now : Nat) (hWF : WF s) :
    sweep s 3600 now = cleanup_inactive_connections s now
    ∧ ∀ ws mt, lookupA s.connection_metadata ws = some mt →
        lookupA (sweep s threshold now).connection_metadata ws
          = if threshold < now - mt.connected_at then none else some mt := by
  refine ⟨rfl, ?_⟩
  intro ws mt hlk
  rw [sweep_metadata, lookupA_foldl_eraseA _ _ _ hWF.2.2.1]
  have hmem := mem_keysA_filter s.connection_metadata
    (fun p => decide (threshold < now - p.2.connected_at)) ws mt
    hWF.2.2.1 hlk
  by_cases hc : threshold < now - mt.connected_at
  · rw [if_pos (hmem.mpr (by simpa using hc)), if_pos hc]
  · rw [if_neg (fun hmemk => hc (by simpa using hmem.mp hmemk)), if_neg hc]
    exact hlk

/-- Witness for the amended C4 at a concrete state and threshold `0`. -/
theorem claim_C4_witness :
    (sweep c4state 3600 99 = cleanup_inactive_connections c4state 99)
    ∧ ∀ ws mt, lookupA c4state.connection_metadata ws = some mt →
        lookupA (sweep c4state 0 99).connection_metadata ws
          = if 0 < 99 - mt.connected_at then none else some mt :=
  claim_C4 c4state 0 99 (by decide)

/-- C5: `send_to_user` returns `true` iff at least one of the user's live
connections accepted the message (one delivery event exists); with zero
live connections it returns `false` and the stamped message is appended to
that user's offline queue. -/
theorem claim_C5 (s : State) (u : Nat) (msg : Dict) (now : Nat)
    (fail : Nat → Bool) :
    ((send_to_user s u msg now fail).2.1 = true
      ↔ (send_to_user s u msg now fail).2.2.1 ≠ [])
    ∧ (get_user_connection_count s u = 0 →
        (send_to_user s u msg now fail).2.1 = false
        ∧ offline_queue (send_to_user s u msg now fail).1 u
            = offline_append (offline_queue s u)
                (stamp_message msg now)) := by
  refine ⟨send_to_user_flag_iff_events s u msg now fail, ?_⟩
  intro h
  have hoff := send_to_user_offline s u msg now fail h
  exact ⟨hoff.2.1, by rw [hoff.1, offline_queue_queue_offline_message]⟩

/-- Witness for C5 at the fresh manager and offline user `3`. -/
theorem claim_C5_witness :
    get_user_connection_count initialState 3 = 0
    ∧ ((send_to_user initialState 3 [("type", J.str "hi")] 4
          (fun _ => false)).2.1 = false
      ∧ offline_queue (send_to_user initialState 3 [("type", J.str "hi")] 4
          (fun _ => false)).1 3
        = offline_append (offline_queue initialState 3)
            (stamp_message [("type", J.str "hi")] 4)) :=
  ⟨rfl, (claim_C5 initialState 3 [("type", J.str "hi")] 4
    (fun _ => false)).2 rfl⟩

/-- C6: sending to a user with zero live connections returns `false` and
appends exactly one (stamped) message to that user's offline queue: the
queue becomes the newest 100 of `old ++ [message]`, and is literally
`old ++ [message]` whenever the queue was below capacity.  (The embedded
operation is total: every exception path of the Python code is caught
inside the manager.) -/
theorem claim_C6 (s : State) (u : Nat) (msg : Dict) (now : Nat)
    (fail : Nat → Bool) (h : get_user_connection_count s u = 0) :
    (send_to_user s u msg now fail).2.1 = false
    ∧ offline_queue (send_to_user s u msg now fail).1 u
        = lastN 100 (offline_queue s u ++ [stamp_message msg now])
    ∧ ((offline_queue s u).length < 100 →
        offline_queue (send_to_user s u msg now fail).1 u
          = offline_queue s u ++ [stamp_message msg now]) := by
  have hoff := send_to_user_offline s u msg now fail h
  refine ⟨hoff.2.1, ?_, ?_⟩
  · rw [hoff.1, offline_queue_queue_offline_message, offline_append_eq_lastN]
  · intro hlen
    rw [hoff.1, offline_queue_queue_offline_message]
    unfold offline_append
    dsimp only
    rw [if_neg (by
      simp only [List.length_append, List.length_singleton, Nat.not_lt]
      omega)]

/-- Witness for C6 at the fresh manager and offline user `2`. -/
theorem claim_C6_witness :
    get_user_connection_count initialState 2 = 0
    ∧ ((send_to_user initialState 2 [("a", J.num 1)] 6
          (fun _ => false)).2.1 = false
      ∧ offline_queue (send_to_user initialState 2 [("a", J.num 1)] 6
          (fun _ => false)).1 2
        = lastN 100 (offline_queue initialState 2
            ++ [stamp_message [("a", J.num 1)] 6])
      ∧ ((offline_queue initialState 2).length < 100 →
          offline_queue (send_to_user initialState 2 [("a", J.num 1)] 6
            (fun _ => false)).1 2
          = offline_queue initialState 2
            ++ [stamp_message [("a", J.num 1)] 6])) :=
  ⟨rfl, claim_C6 initialState 2 [("a", J.num 1)] 6 (fun _ => false) rfl⟩

/-- C7: flushing the offline queue hands each queued message to
`send_to_user` exactly once, wrapped as an `offline_message`, in FIFO
order, and afterwards the user's offline queue is empty — even a message
whose replay failed (and was re-queued by `send_to_user`) is dropped by
the final `clear()`. -/
theorem claim_C7 (s : State) (u now : Nat) (fail : Nat → Bool) :
    offline_queue (send_offline_messages s u now fail).1 u = []
    ∧ (send_offline_messages s u now fail).2.2
        = (offline_queue s u).map wrap_offline :=
  ⟨send_offline_queue_empty s u now fail,
    send_offline_dispatched s u now fail⟩

/-- C8 counterexample: the `pong` reply has no `data` field at all, and
`connection_confirmed` has no top-level `timestamp` (its timestamp sits
inside `data`), so not every outbound message has the three-field shape. -/
theorem claim_C8_counterexample :
    has_envelope (pong_msg 0) = false
    ∧ has_envelope (connection_confirmed_msg 1 2 3) = false := ⟨rfl, rfl⟩

/-- C8 (amended): every outbound message routed through `send_to_user`
(`system_notification`, `ai_response`, `task_notification`,
`calendar_reminder`, `offline_message`) has all three top-level fields
`type`, `data`, `timestamp` after stamping; but `pong` lacks `data` and
`connection_confirmed` lacks a top-level `timestamp`. -/
theorem claim_C8 (s : State) (u now t sid : Nat) (fail : Nat → Bool)
    (m resp : String) (ctx : Option Dict) (td ed orig : Dict) :
    has_envelope ((send_to_user s u (system_notification_msg m t) now
        fail).2.2.2) = true
    ∧ has_envelope ((send_to_user s u (ai_response_msg resp ctx t) now
        fail).2.2.2) = true
    ∧ has_envelope ((send_to_user s u (task_notification_msg td t) now
        fail).2.2.2) = true
    ∧ has_envelope ((send_to_user s u (calendar_reminder_msg ed t) now
        fail).2.2.2) = true
    ∧ has_envelope ((send_to_user s u (wrap_offline orig) now fail).2.2.2)
        = true
    ∧ hasKey (pong_msg now) "data" = false
    ∧ hasKey (connection_confirmed_msg u sid now) "timestamp" = false := by
  rw [send_to_user_msg_out, send_to_user_msg_out, send_to_user_msg_out,
    send_to_user_msg_out, send_to_user_msg_out]
  exact ⟨rfl, rfl, rfl, rfl, rfl, rfl, rfl⟩

/-- C9: both `send_to_user` and `broadcast_to_all` hand back the caller's
message dict with its `timestamp` key set (overwritten if present) to the
delivery instant, and every other key unchanged. -/
theorem claim_C9 (s : State) (u : Nat) (msg : Dict) (ex : Option Nat)
    (now : Nat) (fail : Nat → Bool) (k : String) :
    (send_to_user s u msg now fail).2.2.2 = stamp_message msg now
    ∧ (broadcast_to_all s msg ex now fail).2.2 = stamp_message msg now
    ∧ lookupA (stamp_message msg now) "timestamp" = some (timeJ now)
    ∧ (k ≠ "timestamp" →
        lookupA (stamp_message msg now) k = lookupA msg k) :=
  ⟨send_to_user_msg_out s u msg now fail,
   broadcast_msg_out s msg ex now fail,
   lookupA_setA_self msg "timestamp" (timeJ now),
   fun hk => lookupA_setA_ne msg "timestamp" k (timeJ now) hk⟩

/-- Witness for C9 at a concrete message and the key `type`. -/
theorem claim_C9_witness :
    ("type" : String) ≠ "timestamp"
    ∧ lookupA (stamp_message [("type", J.str "x")] 9) "type"
        = lookupA [("type", J.str "x")] "type" :=
  ⟨by decide, (claim_C9 initialState 0 [("type", J.str "x")] none 9
      (fun _ => false) "type").2.2.2 (by decide)⟩

/-- Concrete manager state for C10: user `5` online with socket `1`. -/
def c10state : State := applyOps initialState
  [Op.connectOp 1 5 none 3 21 false (fun _ => false)]

/-- C10: `send_system_notification` with `user_id = 0` takes the broadcast
branch (identical to passing no user at all), because the targeted branch
is guarded by Python truthiness; for every nonzero `user_id` the
notification goes only to that user. -/
theorem claim_C10 (s : State) (m : String) (now : Nat) (fail : Nat → Bool)
    (x : Nat) :
    send_system_notification s m (some 0) now fail
        = send_system_notification s m none now fail
    ∧ (send_system_notification s m (some 0) now fail).2
        = (broadcast_to_all s (system_notification_msg m now) none now
            fail).2.1
    ∧ (x ≠ 0 → ∀ ev ∈ (send_system_notification s m (some x) now fail).2,
        ev.1 = x) := by
  refine ⟨rfl, rfl, ?_⟩
  intro hx ev hev
  have hb : (x != 0) = true := by simpa using hx
  rw [show send_system_notification s m (some x) now fail
      = (if (x != 0) = true then
          ((send_to_user s x (system_notification_msg m now) now fail).1,
            (send_to_user s x (system_notification_msg m now) now
              fail).2.2.1)
        else
          ((broadcast_to_all s (system_notification_msg m now) none now
              fail).1,
            (broadcast_to_all s (system_notification_msg m now) none now
              fail).2.1))
      from rfl, if_pos hb] at hev
  exact send_to_user_events_user s x (system_notification_msg m now) now
    fail ev hev

/-- Witness for C10 at a concrete state and target user `5`. -/
theorem claim_C10_witness :
    (5 : Nat) ≠ 0
    ∧ ∀ ev ∈ (send_system_notification c10state "hello" (some 5) 4
        (fun _ => false)).2, ev.1 = 5 :=
  ⟨by decide, (claim_C10 c10state "hello" 4 (fun _ => false) 5).2.2
    (by decide)⟩

end DostAI
